import Mathlib

/-!
Auth0 authentication middleware (`authentication/authentication.go`)

A shallow embedding of package `authentication`: the constructor `New`, the
decorator `Middleware` and the helper `getToken`.

The package is glue around three outside libraries: the shared HTTP client
(`client.New`, `PostWithContext`), the Auth0 JWT validator (`ValidateRequest`)
and the shared router (`RespondError`). Their answers are taken from an
environment `Env` of functions; every call this package makes to them is
appended to a trace of `Event`s, in program order. Each answer may depend on
the whole trace so far, so the outside world may behave differently on every
call.
-/

set_option autoImplicit false

namespace authentication

/-! ## Go values -/

/-- A non-nil Go `error`, identified with the text its `Error()` method returns.
A value of Go type `error` is an `Option GoError`, `none` being `nil`. -/
abbrev GoError := String

/-- A Go `[]byte`. -/
abbrev Bytes := List UInt8

/-- Go's `http.Header`, a `map[string][]string`, kept as an association list
read at the first entry of a key. The keys this package uses are literals
already in canonical MIME form, so canonicalisation is the identity on them. -/
structure Header where
  entries : List (String × List String)
  deriving DecidableEq, Repr

/-- The map update `h[key] = vs`. -/
def Header.assign : List (String × List String) → String → List String →
    List (String × List String)
  | [], key, vs => [(key, vs)]
  | (k, old) :: rest, key, vs =>
    if k = key then (key, vs) :: rest else (k, old) :: Header.assign rest key vs

/-- The map read `h[key]`, the nil slice when the key is absent. -/
def Header.lookup : List (String × List String) → String → List String
  | [], _ => []
  | (k, vs) :: rest, key => if k = key then vs else Header.lookup rest key

/-- Method `Header.Values`: all values stored under `key`. -/
def Header.Values (h : Header) (key : String) : List String :=
  Header.lookup h.entries key

/-- Method `Header.Get`: the first value stored under `key`, `""` when there is none. -/
def Header.Get (h : Header) (key : String) : String :=
  match h.Values key with
  | [] => ""
  | v :: _ => v

/-- Method `Header.Set`: `h[key] = []string{value}`. -/
def Header.Set (h : Header) (key value : String) : Header :=
  ⟨Header.assign h.entries key [value]⟩

/-- Method `Header.Add`: `h[key] = append(h[key], value)`. -/
def Header.Add (h : Header) (key value : String) : Header :=
  ⟨Header.assign h.entries key (h.Values key ++ [value])⟩

/-- A `context.Context`, by identity. -/
structure Context where
  id : Nat
  deriving DecidableEq, Repr

/-- The parts of an `*http.Request` a handler can read. -/
structure Request where
  Method : String
  URL : String
  Header : Header
  Body : Bytes
  ctx : Context
  deriving DecidableEq, Repr

/-- Method `r.Context()`. -/
def Request.Context (r : Request) : Context := r.ctx

/-- An `http.ResponseWriter`, as far as this package touches it: the header map
returned by `w.Header()`. -/
structure ResponseWriter where
  header : Header
  deriving DecidableEq, Repr

/-! ## Constants -/

/-- package logging key -/
def packageKey : String := "client"

/-- all options values -/
def all : String := "*"

/-- basic http request methods -/
def basicMethods : String := "DELETE, GET, POST, PUT"

/-- Constant `http.StatusOK` -/
def StatusOK : Int := 200

/-- Constant `http.StatusUnauthorized` -/
def StatusUnauthorized : Int := 401

/-- Constant `http.StatusGatewayTimeout` -/
def StatusGatewayTimeout : Int := 504

/-- Constant `jose.RS256` -/
def RS256 : String := "RS256"

/-! ## Types of the outside libraries -/

/-- The shared package's `config.Client`, embedded in `Config`. This package
reads its `URL` field only; the remaining settings go to `client.New` as they
are. -/
structure ConfigClient where
  URL : String
  Settings : List (String × String)
  deriving DecidableEq, Repr

/-- The shared package's `client.Client`, by identity: what `client.New` built. -/
structure Client where
  id : Nat
  deriving DecidableEq, Repr

/-- The shared package's client response: `StatusCode` and the raw body. -/
structure Response where
  StatusCode : Int
  Body : Bytes
  deriving DecidableEq, Repr

/-- Method `resp.GetBodyBytes()`. -/
def Response.GetBodyBytes (resp : Response) : Bytes := resp.Body

/-- Options `auth0.JWKClientOptions`. -/
structure JWKClientOptions where
  URI : String
  deriving DecidableEq, Repr

/-- What `auth0.NewJWKClient` holds: its options and the token extractor it was
given (`none` for `nil`). -/
structure JWKClient where
  options : JWKClientOptions
  extractor : Option String
  deriving DecidableEq, Repr

/-- What `auth0.NewConfiguration` holds. -/
structure Configuration where
  secretProvider : JWKClient
  expectedAudience : List String
  expectedIssuer : String
  expectedAlgorithm : String
  deriving DecidableEq, Repr

/-- What `auth0.NewValidator` holds. -/
structure JWTValidator where
  config : Configuration
  extractor : Option String
  deriving DecidableEq, Repr

/-- Constructor `auth0.NewJWKClient`. -/
def NewJWKClient (options : JWKClientOptions) (extractor : Option String) : JWKClient :=
  ⟨options, extractor⟩

/-- Constructor `auth0.NewConfiguration`. -/
def NewConfiguration (provider : JWKClient) (audience : List String) (issuer : String)
    (method : String) : Configuration :=
  ⟨provider, audience, issuer, method⟩

/-- Constructor `auth0.NewValidator`. -/
def NewValidator (config : Configuration) (extractor : Option String) : JWTValidator :=
  ⟨config, extractor⟩

/-! ## Types of this package -/

/-- Middleware configurations that stems from the shared package config.Client. -/
structure Config where
  ID : String
  Secret : String
  Client : ConfigClient
  deriving DecidableEq, Repr

/-- Promoted field `conf.URL` of the embedded `config.Client`. -/
def Config.URL (conf : Config) : String := conf.Client.URL

/-- The configurations of the Auth0 client used to handle authentication. -/
structure Authentication where
  clientID : String
  clientSecret : String
  domain : String
  identifier : String
  client : Client
  deriving DecidableEq, Repr

/-- The anonymous struct `payload` of `getToken`. -/
structure Payload where
  Audience : String
  ClientID : String
  ClientSecret : String
  GrantType : String
  deriving DecidableEq, Repr

/-- The JSON object `payload` marshals to, by its `json:"..."` field tags. -/
def Payload.jsonFields (p : Payload) : List (String × String) :=
  [("audience", p.Audience), ("client_id", p.ClientID),
   ("client_secret", p.ClientSecret), ("grant_type", p.GrantType)]

/-- The anonymous struct `access` of `getToken`. -/
structure Access where
  Token : String
  deriving DecidableEq, Repr

/-- The marshal function handed to `router.RespondError`. -/
inductive Marshaler where
  | jsonMarshal
  deriving DecidableEq, Repr

/-! ## Calls to the outside, and their answers -/

/-- One call made to the outside, with its arguments as they were at the call. -/
inductive Event where
  /-- Call `w.Header().Set(key, value)` on the response writer. -/
  | SetHeader (key value : String)
  /-- Call `c.PostWithContext(ctx, path, headers, payload)`. -/
  | PostWithContext (c : Client) (ctx : Context) (path : String)
      (headers : Option Header) (payload : Payload)
  /-- Call `validator.ValidateRequest(r)`. -/
  | ValidateRequest (validator : JWTValidator) (r : Request)
  /-- Call `router.RespondError(w, marshal, code, err)`. -/
  | RespondError (w : ResponseWriter) (marshal : Marshaler) (code : Int) (err : GoError)
  /-- A protected handler that records its calls was entered with `(w, r)`. -/
  | Served (w : ResponseWriter) (r : Request)
  deriving DecidableEq, Repr

/-- A run's history. -/
abbrev Trace := List Event

/-- The answers of the outside libraries. A Go result `(value, error)` is a
pair whose second part is `none` for a nil error. -/
structure Env where
  /-- Answer of `client.New(conf)`. -/
  clientNew : ConfigClient → Client × Option GoError
  /-- Answer of `PostWithContext`, given the history before the call. -/
  PostWithContext : Trace → Client → Context → String → Option Header → Payload →
    Response × Option GoError
  /-- Answer of `json.Unmarshal(data, &access)` for a struct whose only field is
  tagged `access_token`: the string found under that key (`none` when the data
  has no such key, or null under it) and the error. -/
  jsonAccessToken : Bytes → Option String × Option GoError
  /-- Answer of `ValidateRequest` (its error; the claims are dropped by the
  caller), given the history before the call. -/
  ValidateRequest : Trace → JWTValidator → Request → Option GoError

/-- Function `json.Unmarshal(data, &access)`: a key missing from the data leaves
the field as it was. -/
def Unmarshal (env : Env) (data : Bytes) (access : Access) : Access × Option GoError :=
  match env.jsonAccessToken data with
  | (found, err) => (⟨found.getD access.Token⟩, err)

/-- Verb `%s` of `fmt` applied to a value of type `error`: the message, and
`%!s(<nil>)` for nil. -/
def verbS : Option GoError → String
  | some err => err
  | none => "%!s(<nil>)"

/-- An `http.HandlerFunc`: what serving `(w, r)` adds to the history. -/
abbrev HandlerFunc := ResponseWriter → Request → Trace → Trace

/-! ## The package -/

/-- New
Configures a new struct to be used for Auth0 authentication.
The result is Go's `(*Authentication, error)`. -/
def New (env : Env) (app : String) (conf : Config) :
    Option Authentication × Option GoError :=
  match env.clientNew conf.Client with
  | (newClient, err) =>
    if err ≠ none then
      (none, err)
    else
      (some {
        domain := conf.URL
        identifier := "https://" ++ app
        client := newClient
        clientID := conf.ID
        clientSecret := conf.Secret }, err)

/-- getToken
Executes a client credentials exchange to retrieve an access token for the
Auth0 client application. The result is Go's `(string, error)`, with the
history after the call. -/
def getToken (env : Env) (a : Authentication) (ctx : Context) (tr : Trace) :
    (String × Option GoError) × Trace :=
  -- build request and call api
  let payload : Payload := {
    Audience := a.identifier
    ClientID := a.clientID
    ClientSecret := a.clientSecret
    GrantType := "client_credentials" }
  match env.PostWithContext tr a.client ctx "oauth/token" none payload with
  | (resp, err) =>
    let tr := tr ++ [Event.PostWithContext a.client ctx "oauth/token" none payload]
    if err ≠ none then
      (("", some (packageKey ++ ": " ++ verbS err ++ ", could not call client")), tr)
    else
      -- check response status
      if resp.StatusCode = StatusOK then
        let access : Access := { Token := "" }
        match Unmarshal env resp.GetBodyBytes access with
        | (access, err) =>
          if err ≠ none then
            (("", some (packageKey ++ ": " ++ verbS err ++ ", could not unmarshal")), tr)
          else
            ((access.Token, none), tr)
      else
        (("", some (packageKey ++ ": " ++ verbS err)), tr)

/-- Middleware
Handler function that authenticates handler. -/
def Middleware (env : Env) (a : Authentication) (next : HandlerFunc) : HandlerFunc :=
  fun w r tr =>
    -- set writer header options
    let w : ResponseWriter := ⟨w.header.Set "Access-Control-Allow-Origin" all⟩
    let tr := tr ++ [Event.SetHeader "Access-Control-Allow-Origin" all]
    let w : ResponseWriter := ⟨w.header.Set "Access-Control-Allow-Methods" basicMethods⟩
    let tr := tr ++ [Event.SetHeader "Access-Control-Allow-Methods" basicMethods]
    let w : ResponseWriter := ⟨w.header.Set "Access-Control-Allow-Headers" "Content-Type, Content-Length, Accept-Encoding, X-CSRF-Token, Authorization, accept, origin, Cache-Control, X-Requested-With"⟩
    let tr := tr ++ [Event.SetHeader "Access-Control-Allow-Headers" "Content-Type, Content-Length, Accept-Encoding, X-CSRF-Token, Authorization, accept, origin, Cache-Control, X-Requested-With"]
    -- create clients for handling and validation JSON Web Keys for Auth0 tokens.
    let client := NewJWKClient { URI := a.domain ++ "/.well-known/jwks.json" } none
    let configuration := NewConfiguration client [a.identifier] (a.domain ++ "/") RS256
    let validator := NewValidator configuration none
    -- retrieve authorized access bearer token
    match getToken env a r.Context tr with
    | ((token, err), tr) =>
      match err with
      | some err =>
        tr ++ [Event.RespondError w Marshaler.jsonMarshal StatusGatewayTimeout err]
      | none =>
        let r : Request := { r with Header := r.Header.Add "Authorization" ("Bearer " ++ token) }
        -- validate token
        let err := env.ValidateRequest tr validator r
        let tr := tr ++ [Event.ValidateRequest validator r]
        match err with
        | some err =>
          tr ++ [Event.RespondError w Marshaler.jsonMarshal StatusUnauthorized err]
        | none =>
          next w r tr

/-- A protected handler that only records that it was entered, and with what. -/
def spy : HandlerFunc :=
  fun w r tr => tr ++ [Event.Served w r]

/-! ## Vocabulary of the statements -/

/-- The value `Middleware` writes under `Access-Control-Allow-Headers`. -/
def allowedHeaders : String :=
  "Content-Type, Content-Length, Accept-Encoding, X-CSRF-Token, Authorization, accept, origin, Cache-Control, X-Requested-With"

/-- The three header writes that open every run of the handler. -/
def corsEvents : Trace :=
  [Event.SetHeader "Access-Control-Allow-Origin" "*",
   Event.SetHeader "Access-Control-Allow-Methods" "DELETE, GET, POST, PUT",
   Event.SetHeader "Access-Control-Allow-Headers" allowedHeaders]

/-- The response writer after those three writes. -/
def corsWriter (w : ResponseWriter) : ResponseWriter :=
  ⟨((w.header.Set "Access-Control-Allow-Origin" "*").Set
      "Access-Control-Allow-Methods" "DELETE, GET, POST, PUT").Set
      "Access-Control-Allow-Headers" allowedHeaders⟩

/-- The payload `getToken` posts for `a`. -/
def tokenPayload (a : Authentication) : Payload :=
  ⟨a.identifier, a.clientID, a.clientSecret, "client_credentials"⟩

/-- The call `getToken` makes for `a` under `ctx`. -/
def tokenCall (a : Authentication) (ctx : Context) : Event :=
  Event.PostWithContext a.client ctx "oauth/token" none (tokenPayload a)

/-- The validator `Middleware` builds for `a`. -/
def validatorOf (a : Authentication) : JWTValidator :=
  NewValidator
    (NewConfiguration (NewJWKClient ⟨a.domain ++ "/.well-known/jwks.json"⟩ none)
      [a.identifier] (a.domain ++ "/") RS256)
    none

/-- The request after `r.Header.Add("Authorization", "Bearer "+token)`. -/
def withBearer (r : Request) (token : String) : Request :=
  { r with Header := r.Header.Add "Authorization" ("Bearer " ++ token) }

/-- Number of `PostWithContext` calls in a history. -/
def postCount : Trace → Nat
  | [] => 0
  | Event.PostWithContext _ _ _ _ _ :: rest => postCount rest + 1
  | _ :: rest => postCount rest

/-- Number of `ValidateRequest` calls in a history. -/
def validateCount : Trace → Nat
  | [] => 0
  | Event.ValidateRequest _ _ :: rest => validateCount rest + 1
  | _ :: rest => validateCount rest

/-- Number of `RespondError` calls in a history. -/
def respondCount : Trace → Nat
  | [] => 0
  | Event.RespondError _ _ _ _ :: rest => respondCount rest + 1
  | _ :: rest => respondCount rest

/-- Number of recorded entries into a protected handler in a history. -/
def servedCount : Trace → Nat
  | [] => 0
  | Event.Served _ _ :: rest => servedCount rest + 1
  | _ :: rest => servedCount rest

/-- String `part` occurs inside `msg`. -/
def occursIn (part msg : String) : Prop :=
  ∃ before after : String, msg = before ++ part ++ after

/-! ## Sample runs -/

/-- The Authenticator of the spec's concrete scenario. -/
def sampleAuth : Authentication :=
  ⟨"abc", "xyz", "https://idp.example.com", "https://orders-service", ⟨1⟩⟩

/-- The configuration of the spec's concrete scenario. -/
def sampleConf : Config :=
  ⟨"abc", "xyz", ⟨"https://idp.example.com", []⟩⟩

/-- A request that carries the caller's own `Authorization` header. -/
def callerRequest : Request :=
  ⟨"GET", "/orders", ⟨[("Authorization", ["Bearer caller-token"])]⟩, [], ⟨7⟩⟩

/-- A request without an `Authorization` header. -/
def bareRequest : Request :=
  ⟨"GET", "/orders", ⟨[("Accept", ["application/json"])]⟩, [], ⟨7⟩⟩

/-- A fresh response writer. -/
def freshWriter : ResponseWriter := ⟨⟨[]⟩⟩

/-- An outside world where everything succeeds: the token endpoint answers 200
with the token `svc`, and the validator accepts. -/
def envAccept : Env where
  clientNew := fun _ => (⟨1⟩, none)
  PostWithContext := fun _ _ _ _ _ _ => (⟨200, [123, 125]⟩, none)
  jsonAccessToken := fun _ => (some "svc", none)
  ValidateRequest := fun _ _ _ => none

/-- As `envAccept`, but the validator rejects. -/
def envReject : Env where
  clientNew := fun _ => (⟨1⟩, none)
  PostWithContext := fun _ _ _ _ _ _ => (⟨200, [123, 125]⟩, none)
  jsonAccessToken := fun _ => (some "svc", none)
  ValidateRequest := fun _ _ _ => some "Token is expired"

/-- The token endpoint cannot be reached. -/
def envTransport : Env where
  clientNew := fun _ => (⟨1⟩, none)
  PostWithContext := fun _ _ _ _ _ _ => (⟨0, []⟩, some "context deadline exceeded")
  jsonAccessToken := fun _ => (none, some "unexpected end of JSON input")
  ValidateRequest := fun _ _ _ => none

/-- The token endpoint answers 500 with body `a`. -/
def envStatus500 : Env where
  clientNew := fun _ => (⟨1⟩, none)
  PostWithContext := fun _ _ _ _ _ _ => (⟨500, [97]⟩, none)
  jsonAccessToken := fun _ => (none, some "invalid character")
  ValidateRequest := fun _ _ _ => none

/-- The token endpoint answers 404 with body `b`. -/
def envStatus404 : Env where
  clientNew := fun _ => (⟨1⟩, none)
  PostWithContext := fun _ _ _ _ _ _ => (⟨404, [98]⟩, none)
  jsonAccessToken := fun _ => (none, some "invalid character")
  ValidateRequest := fun _ _ _ => none

/-- The token endpoint answers 200 with a body that does not parse. -/
def envBadBody : Env where
  clientNew := fun _ => (⟨1⟩, none)
  PostWithContext := fun _ _ _ _ _ _ => (⟨200, [123]⟩, none)
  jsonAccessToken := fun _ => (none, some "unexpected end of JSON input")
  ValidateRequest := fun _ _ _ => none

/-- The token endpoint answers 200 with an object that has no `access_token`. -/
def envNoField : Env where
  clientNew := fun _ => (⟨1⟩, none)
  PostWithContext := fun _ _ _ _ _ _ => (⟨200, [123, 125]⟩, none)
  jsonAccessToken := fun _ => (none, none)
  ValidateRequest := fun _ _ _ => none

/-- The shared client cannot be built. -/
def envNoClient : Env where
  clientNew := fun _ => (⟨0⟩, some "client: missing url")
  PostWithContext := fun _ _ _ _ _ _ => (⟨0, []⟩, some "no client")
  jsonAccessToken := fun _ => (none, none)
  ValidateRequest := fun _ _ _ => none

/-! ## Lemmas on headers and on counting -/

theorem lookup_assign (l : List (String × List String)) (key key2 : String)
    (vs : List String) :
    Header.lookup (Header.assign l key vs) key2 =
      if key = key2 then vs else Header.lookup l key2 := by
  induction l with
  | nil =>
    simp [Header.assign, Header.lookup]
  | cons p rest ih =>
    obtain ⟨k, old⟩ := p
    by_cases hk : k = key
    · subst hk
      by_cases h2 : k = key2 <;> simp [Header.assign, Header.lookup, h2]
    · by_cases h2 : key = key2
      · subst h2
        simp [Header.assign, Header.lookup, hk, ih]
      · by_cases h3 : k = key2
        · subst h3
          simp [Header.assign, Header.lookup, hk, h2]
        · simp [Header.assign, Header.lookup, hk, h2, h3, ih]

theorem values_Set (h : Header) (key value key2 : String) :
    (h.Set key value).Values key2 = if key = key2 then [value] else h.Values key2 := by
  simp [Header.Set, Header.Values, lookup_assign]

theorem values_Add (h : Header) (key value key2 : String) :
    (h.Add key value).Values key2 =
      if key = key2 then h.Values key ++ [value] else h.Values key2 := by
  simp [Header.Add, Header.Values, lookup_assign]

theorem postCount_append (xs ys : Trace) :
    postCount (xs ++ ys) = postCount xs + postCount ys := by
  induction xs with
  | nil => simp [postCount]
  | cons e rest ih =>
    cases e <;> simp [postCount, ih]
    omega

theorem validateCount_append (xs ys : Trace) :
    validateCount (xs ++ ys) = validateCount xs + validateCount ys := by
  induction xs with
  | nil => simp [validateCount]
  | cons e rest ih =>
    cases e <;> simp [validateCount, ih]
    omega

theorem respondCount_append (xs ys : Trace) :
    respondCount (xs ++ ys) = respondCount xs + respondCount ys := by
  induction xs with
  | nil => simp [respondCount]
  | cons e rest ih =>
    cases e <;> simp [respondCount, ih]
    omega

theorem servedCount_append (xs ys : Trace) :
    servedCount (xs ++ ys) = servedCount xs + servedCount ys := by
  induction xs with
  | nil => simp [servedCount]
  | cons e rest ih =>
    cases e <;> simp [servedCount, ih]
    omega

/-! ## How the two functions run -/

theorem getToken_trace (env : Env) (a : Authentication) (ctx : Context) (tr : Trace) :
    (getToken env a ctx tr).2 = tr ++ [tokenCall a ctx] := by
  unfold getToken tokenCall tokenPayload
  simp only []
  split_ifs <;> rfl

theorem getToken_cases (env : Env) (a : Authentication) (ctx : Context) (tr : Trace) :
    (getToken env a ctx tr).1 =
      if (env.PostWithContext tr a.client ctx "oauth/token" none (tokenPayload a)).2 ≠ none then
        ("", some ("client: " ++
          verbS (env.PostWithContext tr a.client ctx "oauth/token" none (tokenPayload a)).2 ++
          ", could not call client"))
      else if (env.PostWithContext tr a.client ctx "oauth/token" none (tokenPayload a)).1.StatusCode
          = 200 then
        if (env.jsonAccessToken
            (env.PostWithContext tr a.client ctx "oauth/token" none (tokenPayload a)).1.Body).2
            ≠ none then
          ("", some ("client: " ++
            verbS (env.jsonAccessToken
              (env.PostWithContext tr a.client ctx "oauth/token" none (tokenPayload a)).1.Body).2
            ++ ", could not unmarshal"))
        else
          (((env.jsonAccessToken
            (env.PostWithContext tr a.client ctx "oauth/token" none (tokenPayload a)).1.Body).1).getD
              "", none)
      else
        ("", some "client: %!s(<nil>)") := by
  unfold getToken tokenPayload
  simp only [Unmarshal, Response.GetBodyBytes, packageKey, StatusOK]
  split_ifs with h1 <;> first | rfl | skip
  simp only [ne_eq, Decidable.not_not] at h1
  simp [h1, verbS]

theorem Middleware_run (env : Env) (a : Authentication) (next : HandlerFunc)
    (w : ResponseWriter) (r : Request) (tr : Trace) :
    Middleware env a next w r tr =
      match (getToken env a r.Context (tr ++ corsEvents)).1 with
      | (_, some e) =>
        tr ++ corsEvents ++ [tokenCall a r.Context,
          Event.RespondError (corsWriter w) Marshaler.jsonMarshal 504 e]
      | (token, none) =>
        match env.ValidateRequest (tr ++ corsEvents ++ [tokenCall a r.Context])
            (validatorOf a) (withBearer r token) with
        | some e =>
          tr ++ corsEvents ++ [tokenCall a r.Context,
            Event.ValidateRequest (validatorOf a) (withBearer r token),
            Event.RespondError (corsWriter w) Marshaler.jsonMarshal 401 e]
        | none =>
          next (corsWriter w) (withBearer r token)
            (tr ++ corsEvents ++ [tokenCall a r.Context,
              Event.ValidateRequest (validatorOf a) (withBearer r token)]) := by
  have htr : tr ++ [Event.SetHeader "Access-Control-Allow-Origin" all] ++
      [Event.SetHeader "Access-Control-Allow-Methods" basicMethods] ++
      [Event.SetHeader "Access-Control-Allow-Headers" allowedHeaders] = tr ++ corsEvents := by
    simp [corsEvents, all, basicMethods]
  have hg := getToken_trace env a r.Context (tr ++ corsEvents)
  unfold Middleware
  simp only []
  rw [show ("Content-Type, Content-Length, Accept-Encoding, X-CSRF-Token, Authorization, accept, origin, Cache-Control, X-Requested-With" : String) = allowedHeaders from rfl, htr]
  rcases hres : getToken env a r.Context (tr ++ corsEvents) with ⟨⟨token, err⟩, tr2⟩
  rw [hres] at hg
  simp only [] at hg
  subst hg
  cases err with
  | some e =>
    simp [corsWriter, all, basicMethods, StatusGatewayTimeout]
  | none =>
    simp only []
    cases hv : env.ValidateRequest (tr ++ corsEvents ++ [tokenCall a r.Context])
        (NewValidator (NewConfiguration
          (NewJWKClient ⟨a.domain ++ "/.well-known/jwks.json"⟩ none)
          [a.identifier] (a.domain ++ "/") RS256) none)
        { r with Header := r.Header.Add "Authorization" ("Bearer " ++ token) } with
    | some e =>
      simp only [List.append_assoc] at hv
      simp [validatorOf, withBearer, hv, corsWriter, all, basicMethods, StatusUnauthorized]
    | none =>
      simp only [List.append_assoc] at hv
      simp [validatorOf, withBearer, hv, corsWriter, all, basicMethods]

theorem New_cases (env : Env) (app : String) (conf : Config) :
    New env app conf =
      if (env.clientNew conf.Client).2 ≠ none then
        (none, (env.clientNew conf.Client).2)
      else
        (some ⟨conf.ID, conf.Secret, conf.Client.URL, "https://" ++ app,
          (env.clientNew conf.Client).1⟩, none) := by
  unfold New Config.URL
  rcases env.clientNew conf.Client with ⟨c, err⟩
  cases err <;> simp

/-! ## Properties of the specification -/

/-- C1, as stated, fails on a request that already carries an `Authorization`
header: the token exchange gives `svc`, the validator accepts, the protected
handler is entered, and a reader of the header of the request it receives
obtains the caller's `Bearer caller-token`, not `Bearer svc`. -/
theorem C1_caller_header_stays_first :
    (getToken envAccept sampleAuth callerRequest.Context ([] ++ corsEvents)).1 = ("svc", none) ∧
    envAccept.ValidateRequest ([] ++ corsEvents ++ [tokenCall sampleAuth callerRequest.Context])
      (validatorOf sampleAuth) (withBearer callerRequest "svc") = none ∧
    Middleware envAccept sampleAuth spy freshWriter callerRequest [] =
      corsEvents ++ [tokenCall sampleAuth callerRequest.Context,
        Event.ValidateRequest (validatorOf sampleAuth) (withBearer callerRequest "svc"),
        Event.Served (corsWriter freshWriter) (withBearer callerRequest "svc")] ∧
    (withBearer callerRequest "svc").Header.Get "Authorization" = "Bearer caller-token" ∧
    (withBearer callerRequest "svc").Header.Get "Authorization" ≠ "Bearer " ++ "svc" := by
  decide

/-- C1 (amended): when `getToken` returns `T` without error and the validator
accepts, the handler `a.Middleware(next)` is one run of `next`, after calls
none of which is an error response; the request `next` receives carries under
`Authorization` the values the inbound request had, followed by `Bearer T`, so
a reader of the header obtains `Bearer T` when the inbound request had no
`Authorization` value and the inbound request's first value otherwise. -/
theorem C1_success_runs_next_once (env : Env) (a : Authentication) (next : HandlerFunc)
    (w : ResponseWriter) (r : Request) (tr : Trace) (T : String)
    (htok : (getToken env a r.Context (tr ++ corsEvents)).1 = (T, none))
    (hval : env.ValidateRequest (tr ++ corsEvents ++ [tokenCall a r.Context])
      (validatorOf a) (withBearer r T) = none) :
    Middleware env a next w r tr =
      next (corsWriter w) (withBearer r T)
        (tr ++ corsEvents ++ [tokenCall a r.Context,
          Event.ValidateRequest (validatorOf a) (withBearer r T)]) ∧
    respondCount (corsEvents ++ [tokenCall a r.Context,
      Event.ValidateRequest (validatorOf a) (withBearer r T)]) = 0 ∧
    servedCount (Middleware env a spy w r tr) = servedCount tr + 1 ∧
    (withBearer r T).Header.Values "Authorization" =
      r.Header.Values "Authorization" ++ ["Bearer " ++ T] ∧
    (withBearer r T).Header.Get "Authorization" =
      (match r.Header.Values "Authorization" with
       | [] => "Bearer " ++ T
       | v :: _ => v) := by
  have hrun : ∀ nxt : HandlerFunc, Middleware env a nxt w r tr =
      nxt (corsWriter w) (withBearer r T)
        (tr ++ corsEvents ++ [tokenCall a r.Context,
          Event.ValidateRequest (validatorOf a) (withBearer r T)]) := by
    intro nxt
    rw [Middleware_run, htok]
    simp only [hval]
  have hvals : (withBearer r T).Header.Values "Authorization" =
      r.Header.Values "Authorization" ++ ["Bearer " ++ T] := by
    simp [withBearer, values_Add]
  refine ⟨hrun next, ?_, ?_, hvals, ?_⟩
  · simp [corsEvents, tokenCall, respondCount]
  · rw [hrun spy]
    simp [spy, servedCount_append, servedCount, corsEvents, tokenCall]
  · unfold Header.Get
    rw [hvals]
    cases r.Header.Values "Authorization" <;> rfl

/-- C1 (amended), on a request without an `Authorization` header. -/
theorem C1_success_runs_next_once_witness :
    (getToken envAccept sampleAuth bareRequest.Context ([] ++ corsEvents)).1 = ("svc", none) ∧
    envAccept.ValidateRequest ([] ++ corsEvents ++ [tokenCall sampleAuth bareRequest.Context])
      (validatorOf sampleAuth) (withBearer bareRequest "svc") = none ∧
    (Middleware envAccept sampleAuth spy freshWriter bareRequest [] =
      spy (corsWriter freshWriter) (withBearer bareRequest "svc")
        ([] ++ corsEvents ++ [tokenCall sampleAuth bareRequest.Context,
          Event.ValidateRequest (validatorOf sampleAuth) (withBearer bareRequest "svc")]) ∧
    respondCount (corsEvents ++ [tokenCall sampleAuth bareRequest.Context,
      Event.ValidateRequest (validatorOf sampleAuth) (withBearer bareRequest "svc")]) = 0 ∧
    servedCount (Middleware envAccept sampleAuth spy freshWriter bareRequest []) =
      servedCount [] + 1 ∧
    (withBearer bareRequest "svc").Header.Values "Authorization" =
      bareRequest.Header.Values "Authorization" ++ ["Bearer " ++ "svc"] ∧
    (withBearer bareRequest "svc").Header.Get "Authorization" =
      (match bareRequest.Header.Values "Authorization" with
       | [] => "Bearer " ++ "svc"
       | v :: _ => v)) :=
  ⟨by decide, by decide,
    C1_success_runs_next_once envAccept sampleAuth spy freshWriter bareRequest [] "svc"
      (by decide) (by decide)⟩

/-- C2: when token acquisition fails, be it by a transport error of the
HTTP-call capability, by a status other than 200, or by a 200 body that does
not decode, `getToken` returns an error `e` and the handler ends with one
`RespondError` of status 504 carrying `e`; it makes no `ValidateRequest` call
and does not run `next`, whatever `next` is. -/
theorem C2_token_failure_responds_504 (env : Env) (a : Authentication)
    (w : ResponseWriter) (r : Request) (tr : Trace) (resp : Response) (err : Option GoError)
    (hpost : env.PostWithContext (tr ++ corsEvents) a.client r.Context "oauth/token" none
      (tokenPayload a) = (resp, err))
    (hfail : err ≠ none ∨ resp.StatusCode ≠ 200 ∨ (env.jsonAccessToken resp.Body).2 ≠ none) :
    ∃ e : GoError,
      (getToken env a r.Context (tr ++ corsEvents)).1 = ("", some e) ∧
      (∀ next : HandlerFunc, Middleware env a next w r tr =
        tr ++ corsEvents ++ [tokenCall a r.Context,
          Event.RespondError (corsWriter w) Marshaler.jsonMarshal 504 e]) ∧
      validateCount (Middleware env a spy w r tr) = validateCount tr ∧
      servedCount (Middleware env a spy w r tr) = servedCount tr := by
  have hcases := getToken_cases env a r.Context (tr ++ corsEvents)
  rw [hpost] at hcases
  simp only [] at hcases
  have herr : ∃ e : GoError, (getToken env a r.Context (tr ++ corsEvents)).1 = ("", some e) := by
    by_cases h1 : err ≠ none
    · rw [if_pos h1] at hcases
      exact ⟨_, hcases⟩
    · rw [if_neg h1] at hcases
      by_cases h2 : resp.StatusCode = 200
      · rw [if_pos h2] at hcases
        have h3 : (env.jsonAccessToken resp.Body).2 ≠ none := by
          rcases hfail with h | h | h
          · exact absurd h h1
          · exact absurd h2 h
          · exact h
        rw [if_pos h3] at hcases
        exact ⟨_, hcases⟩
      · rw [if_neg h2] at hcases
        exact ⟨_, hcases⟩
  obtain ⟨e, he⟩ := herr
  have hrun : ∀ next : HandlerFunc, Middleware env a next w r tr =
      tr ++ corsEvents ++ [tokenCall a r.Context,
        Event.RespondError (corsWriter w) Marshaler.jsonMarshal 504 e] := by
    intro next
    rw [Middleware_run, he]
  refine ⟨e, he, hrun, ?_, ?_⟩
  · rw [hrun spy]
    simp [validateCount_append, validateCount, corsEvents, tokenCall]
  · rw [hrun spy]
    simp [servedCount_append, servedCount, corsEvents, tokenCall]

/-- C2, on the three ways token acquisition fails: a transport error, a status
500, and a 200 body that does not parse. -/
theorem C2_token_failure_responds_504_witness :
    (envTransport.PostWithContext ([] ++ corsEvents) sampleAuth.client callerRequest.Context
        "oauth/token" none (tokenPayload sampleAuth) = (⟨0, []⟩, some "context deadline exceeded") ∧
      ((some "context deadline exceeded" : Option GoError) ≠ none ∨ (⟨0, []⟩ : Response).StatusCode ≠ 200 ∨
        (envTransport.jsonAccessToken (⟨0, []⟩ : Response).Body).2 ≠ none) ∧
      ∃ e : GoError,
        (getToken envTransport sampleAuth callerRequest.Context ([] ++ corsEvents)).1 =
          ("", some e) ∧
        (∀ next : HandlerFunc, Middleware envTransport sampleAuth next freshWriter callerRequest [] =
          [] ++ corsEvents ++ [tokenCall sampleAuth callerRequest.Context,
            Event.RespondError (corsWriter freshWriter) Marshaler.jsonMarshal 504 e]) ∧
        validateCount (Middleware envTransport sampleAuth spy freshWriter callerRequest []) =
          validateCount [] ∧
        servedCount (Middleware envTransport sampleAuth spy freshWriter callerRequest []) =
          servedCount []) ∧
    (envStatus500.PostWithContext ([] ++ corsEvents) sampleAuth.client callerRequest.Context
        "oauth/token" none (tokenPayload sampleAuth) = (⟨500, [97]⟩, none) ∧
      ((none : Option GoError) ≠ none ∨ (⟨500, [97]⟩ : Response).StatusCode ≠ 200 ∨
        (envStatus500.jsonAccessToken (⟨500, [97]⟩ : Response).Body).2 ≠ none) ∧
      ∃ e : GoError,
        (getToken envStatus500 sampleAuth callerRequest.Context ([] ++ corsEvents)).1 =
          ("", some e) ∧
        (∀ next : HandlerFunc, Middleware envStatus500 sampleAuth next freshWriter callerRequest [] =
          [] ++ corsEvents ++ [tokenCall sampleAuth callerRequest.Context,
            Event.RespondError (corsWriter freshWriter) Marshaler.jsonMarshal 504 e]) ∧
        validateCount (Middleware envStatus500 sampleAuth spy freshWriter callerRequest []) =
          validateCount [] ∧
        servedCount (Middleware envStatus500 sampleAuth spy freshWriter callerRequest []) =
          servedCount []) ∧
    (envBadBody.PostWithContext ([] ++ corsEvents) sampleAuth.client callerRequest.Context
        "oauth/token" none (tokenPayload sampleAuth) = (⟨200, [123]⟩, none) ∧
      ((none : Option GoError) ≠ none ∨ (⟨200, [123]⟩ : Response).StatusCode ≠ 200 ∨
        (envBadBody.jsonAccessToken (⟨200, [123]⟩ : Response).Body).2 ≠ none) ∧
      ∃ e : GoError,
        (getToken envBadBody sampleAuth callerRequest.Context ([] ++ corsEvents)).1 =
          ("", some e) ∧
        (∀ next : HandlerFunc, Middleware envBadBody sampleAuth next freshWriter callerRequest [] =
          [] ++ corsEvents ++ [tokenCall sampleAuth callerRequest.Context,
            Event.RespondError (corsWriter freshWriter) Marshaler.jsonMarshal 504 e]) ∧
        validateCount (Middleware envBadBody sampleAuth spy freshWriter callerRequest []) =
          validateCount [] ∧
        servedCount (Middleware envBadBody sampleAuth spy freshWriter callerRequest []) =
          servedCount []) :=
  ⟨⟨by decide, by decide,
      C2_token_failure_responds_504 envTransport sampleAuth freshWriter callerRequest []
        ⟨0, []⟩ (some "context deadline exceeded") (by decide) (by decide)⟩,
    ⟨by decide, by decide,
      C2_token_failure_responds_504 envStatus500 sampleAuth freshWriter callerRequest []
        ⟨500, [97]⟩ (none) (by decide) (by decide)⟩,
    ⟨by decide, by decide,
      C2_token_failure_responds_504 envBadBody sampleAuth freshWriter callerRequest []
        ⟨200, [123]⟩ (none) (by decide) (by decide)⟩⟩

/-- C3: when the token endpoint answers 200 with a body that decodes to the
token `T` and the validator rejects the request with error `e`, the handler
finishes with one `RespondError` of status 401 carrying `e` and does not run
`next`, whatever `next` is. -/
theorem C3_validation_failure_responds_401 (env : Env) (a : Authentication)
    (w : ResponseWriter) (r : Request) (tr : Trace) (resp : Response) (T : String)
    (e : GoError)
    (hpost : env.PostWithContext (tr ++ corsEvents) a.client r.Context "oauth/token" none
      (tokenPayload a) = (resp, none))
    (hstatus : resp.StatusCode = 200)
    (hbody : env.jsonAccessToken resp.Body = (some T, none))
    (hval : env.ValidateRequest (tr ++ corsEvents ++ [tokenCall a r.Context])
      (validatorOf a) (withBearer r T) = some e) :
    (∀ next : HandlerFunc, Middleware env a next w r tr =
      tr ++ corsEvents ++ [tokenCall a r.Context,
        Event.ValidateRequest (validatorOf a) (withBearer r T),
        Event.RespondError (corsWriter w) Marshaler.jsonMarshal 401 e]) ∧
    servedCount (Middleware env a spy w r tr) = servedCount tr := by
  have hcases := getToken_cases env a r.Context (tr ++ corsEvents)
  rw [hpost] at hcases
  simp only [hstatus, hbody] at hcases
  simp only [ne_eq, not_true_eq_false, if_false, if_true, Option.getD_some] at hcases
  have hrun : ∀ next : HandlerFunc, Middleware env a next w r tr =
      tr ++ corsEvents ++ [tokenCall a r.Context,
        Event.ValidateRequest (validatorOf a) (withBearer r T),
        Event.RespondError (corsWriter w) Marshaler.jsonMarshal 401 e] := by
    intro next
    rw [Middleware_run, hcases]
    simp only [hval]
  refine ⟨hrun, ?_⟩
  rw [hrun spy]
  simp [servedCount_append, servedCount, corsEvents, tokenCall]

/-- C3, on a validator that finds the token expired. -/
theorem C3_validation_failure_responds_401_witness :
    envReject.PostWithContext ([] ++ corsEvents) sampleAuth.client callerRequest.Context
      "oauth/token" none (tokenPayload sampleAuth) = (⟨200, [123, 125]⟩, none) ∧
    (⟨200, [123, 125]⟩ : Response).StatusCode = 200 ∧
    envReject.jsonAccessToken (⟨200, [123, 125]⟩ : Response).Body = (some "svc", none) ∧
    envReject.ValidateRequest ([] ++ corsEvents ++ [tokenCall sampleAuth callerRequest.Context])
      (validatorOf sampleAuth) (withBearer callerRequest "svc") = some "Token is expired" ∧
    (∀ next : HandlerFunc, Middleware envReject sampleAuth next freshWriter callerRequest [] =
      [] ++ corsEvents ++ [tokenCall sampleAuth callerRequest.Context,
        Event.ValidateRequest (validatorOf sampleAuth) (withBearer callerRequest "svc"),
        Event.RespondError (corsWriter freshWriter) Marshaler.jsonMarshal 401
          "Token is expired"]) ∧
    servedCount (Middleware envReject sampleAuth spy freshWriter callerRequest []) =
      servedCount [] :=
  ⟨by decide, by decide, by decide, by decide,
    C3_validation_failure_responds_401 envReject sampleAuth freshWriter callerRequest []
      ⟨200, [123, 125]⟩ "svc" "Token is expired" (by decide) (by decide) (by decide)
      (by decide)⟩

/-- C4: the code at two answers of the token endpoint that differ in status
and in body, 500 with body `a` and 404 with body `b`, neither with a transport
error: `getToken` returns the empty token and the same error text both times,
`client: %!s(<nil>)`, which holds neither the status nor the body. -/
theorem C4_non200_error_has_no_context :
    envStatus500.PostWithContext [] sampleAuth.client ⟨7⟩ "oauth/token" none
      (tokenPayload sampleAuth) = (⟨500, [97]⟩, none) ∧
    envStatus404.PostWithContext [] sampleAuth.client ⟨7⟩ "oauth/token" none
      (tokenPayload sampleAuth) = (⟨404, [98]⟩, none) ∧
    (getToken envStatus500 sampleAuth ⟨7⟩ []).1 = ("", some "client: %!s(<nil>)") ∧
    (getToken envStatus404 sampleAuth ⟨7⟩ []).1 = ("", some "client: %!s(<nil>)") := by
  decide

/-- C5: for `a = New(app, conf)`, every call of `a.getToken(ctx)` adds exactly
one call to the history, whatever its outcome: a `PostWithContext` on the
client `client.New` built, with that `ctx`, path `oauth/token`, nil headers and
a payload whose JSON fields are `audience = "https://" ++ app`,
`client_id = conf.ID`, `client_secret = conf.Secret` and
`grant_type = "client_credentials"`; what `getToken` returns is computed from
the answer to that very call. A request `r` served by `a.Middleware(next)` runs,
in each of its three outcomes, the three header writes, then that one call
under the context of `r`, and no other call to the client; so it adds exactly
one token exchange after any history, and two requests in a row add two
(counted for any `next` that posts nothing itself). -/
theorem C5_one_token_exchange_per_call (env : Env) (app : String) (conf : Config)
    (a : Authentication) (hnew : New env app conf = (some a, none)) :
    (∀ (ctx : Context) (tr : Trace), (getToken env a ctx tr).2 =
      tr ++ [Event.PostWithContext (env.clientNew conf.Client).1 ctx "oauth/token" none
        ⟨"https://" ++ app, conf.ID, conf.Secret, "client_credentials"⟩]) ∧
    (∀ (ctx : Context) (tr : Trace), (getToken env a ctx tr).1 =
      if (env.PostWithContext tr (env.clientNew conf.Client).1 ctx "oauth/token" none
          ⟨"https://" ++ app, conf.ID, conf.Secret, "client_credentials"⟩).2 ≠ none then
        ("", some ("client: " ++ verbS (env.PostWithContext tr (env.clientNew conf.Client).1 ctx "oauth/token" none
          ⟨"https://" ++ app, conf.ID, conf.Secret, "client_credentials"⟩).2 ++ ", could not call client"))
      else if (env.PostWithContext tr (env.clientNew conf.Client).1 ctx "oauth/token" none
          ⟨"https://" ++ app, conf.ID, conf.Secret, "client_credentials"⟩).1.StatusCode = 200 then
        if (env.jsonAccessToken (env.PostWithContext tr (env.clientNew conf.Client).1 ctx "oauth/token" none
          ⟨"https://" ++ app, conf.ID, conf.Secret, "client_credentials"⟩).1.Body).2 ≠ none then
          ("", some ("client: " ++ verbS (env.jsonAccessToken (env.PostWithContext tr (env.clientNew conf.Client).1 ctx "oauth/token" none
          ⟨"https://" ++ app, conf.ID, conf.Secret, "client_credentials"⟩).1.Body).2 ++
            ", could not unmarshal"))
        else
          (((env.jsonAccessToken (env.PostWithContext tr (env.clientNew conf.Client).1 ctx "oauth/token" none
          ⟨"https://" ++ app, conf.ID, conf.Secret, "client_credentials"⟩).1.Body).1).getD "", none)
      else
        ("", some "client: %!s(<nil>)")) ∧
    Payload.jsonFields ⟨"https://" ++ app, conf.ID, conf.Secret, "client_credentials"⟩ =
      [("audience", "https://" ++ app), ("client_id", conf.ID),
       ("client_secret", conf.Secret), ("grant_type", "client_credentials")] ∧
    (∀ (next : HandlerFunc) (w : ResponseWriter) (r : Request) (tr : Trace),
      (∃ e : GoError, Middleware env a next w r tr =
        tr ++ [Event.SetHeader "Access-Control-Allow-Origin" "*",
          Event.SetHeader "Access-Control-Allow-Methods" "DELETE, GET, POST, PUT",
          Event.SetHeader "Access-Control-Allow-Headers" allowedHeaders,
          Event.PostWithContext (env.clientNew conf.Client).1 r.Context "oauth/token" none
            ⟨"https://" ++ app, conf.ID, conf.Secret, "client_credentials"⟩,
          Event.RespondError (corsWriter w) Marshaler.jsonMarshal 504 e]) ∨
      (∃ (T : String) (e : GoError), Middleware env a next w r tr =
        tr ++ [Event.SetHeader "Access-Control-Allow-Origin" "*",
          Event.SetHeader "Access-Control-Allow-Methods" "DELETE, GET, POST, PUT",
          Event.SetHeader "Access-Control-Allow-Headers" allowedHeaders,
          Event.PostWithContext (env.clientNew conf.Client).1 r.Context "oauth/token" none
            ⟨"https://" ++ app, conf.ID, conf.Secret, "client_credentials"⟩,
          Event.ValidateRequest (validatorOf a) (withBearer r T),
          Event.RespondError (corsWriter w) Marshaler.jsonMarshal 401 e]) ∨
      (∃ T : String, Middleware env a next w r tr =
        next (corsWriter w) (withBearer r T)
          (tr ++ [Event.SetHeader "Access-Control-Allow-Origin" "*",
            Event.SetHeader "Access-Control-Allow-Methods" "DELETE, GET, POST, PUT",
            Event.SetHeader "Access-Control-Allow-Headers" allowedHeaders,
            Event.PostWithContext (env.clientNew conf.Client).1 r.Context "oauth/token" none
            ⟨"https://" ++ app, conf.ID, conf.Secret, "client_credentials"⟩,
            Event.ValidateRequest (validatorOf a) (withBearer r T)]))) ∧
    (∀ next : HandlerFunc,
      (∀ (w : ResponseWriter) (r : Request) (t : Trace),
        postCount (next w r t) = postCount t) →
      (∀ (w : ResponseWriter) (r : Request) (tr : Trace),
        postCount (Middleware env a next w r tr) = postCount tr + 1) ∧
      (∀ (w1 w2 : ResponseWriter) (r1 r2 : Request) (tr : Trace),
        postCount (Middleware env a next w2 r2 (Middleware env a next w1 r1 tr)) =
          postCount tr + 2)) := by
  have ha : a = ⟨conf.ID, conf.Secret, conf.URL, "https://" ++ app,
      (env.clientNew conf.Client).1⟩ := by
    rw [New_cases] at hnew
    split_ifs at hnew with h
    · simp at hnew
    · simp only [Prod.mk.injEq, Option.some.injEq] at hnew
      exact hnew.1.symm
  have hcall : ∀ ctx : Context, tokenCall a ctx =
      Event.PostWithContext (env.clientNew conf.Client).1 ctx "oauth/token" none
        ⟨"https://" ++ app, conf.ID, conf.Secret, "client_credentials"⟩ := by
    intro ctx
    rw [ha]
    rfl
  have hone : ∀ next : HandlerFunc,
      (∀ (w : ResponseWriter) (r : Request) (t : Trace),
        postCount (next w r t) = postCount t) →
      ∀ (w : ResponseWriter) (r : Request) (tr : Trace),
      postCount (Middleware env a next w r tr) = postCount tr + 1 := by
    intro next hnext w r tr
    rw [Middleware_run]
    rcases getToken env a r.Context (tr ++ corsEvents) with ⟨⟨token, err⟩, tr2⟩
    cases err with
    | some e =>
      simp [postCount_append, postCount, corsEvents, tokenCall]
    | none =>
      simp only []
      cases env.ValidateRequest (tr ++ corsEvents ++ [tokenCall a r.Context])
          (validatorOf a) (withBearer r token) with
      | some e => simp [postCount_append, postCount, corsEvents, tokenCall]
      | none => simp [hnext, postCount_append, postCount, corsEvents, tokenCall]
  refine ⟨?_, ?_, rfl, ?_, ?_⟩
  · intro ctx tr
    rw [getToken_trace, hcall]
  · intro ctx tr
    have hc := getToken_cases env a ctx tr
    rw [ha] at hc ⊢
    exact hc
  · intro next w r tr
    rw [Middleware_run, hcall]
    rcases getToken env a r.Context (tr ++ corsEvents) with ⟨⟨token, err⟩, tr2⟩
    cases err with
    | some e =>
      left
      exact ⟨e, by simp [corsEvents]⟩
    | none =>
      right
      simp only []
      cases env.ValidateRequest (tr ++ corsEvents ++
          [Event.PostWithContext (env.clientNew conf.Client).1 r.Context "oauth/token" none
            ⟨"https://" ++ app, conf.ID, conf.Secret, "client_credentials"⟩])
          (validatorOf a) (withBearer r token) with
      | some e =>
        left
        exact ⟨token, e, by simp [corsEvents]⟩
      | none =>
        right
        exact ⟨token, by simp [corsEvents]⟩
  · intro next hnext
    refine ⟨hone next hnext, ?_⟩
    intro w1 w2 r1 r2 tr
    rw [hone next hnext, hone next hnext]

/-- C5, on the spec's scenario: application `orders-service`, client `abc`. -/
theorem C5_one_token_exchange_per_call_witness :
    New envAccept "orders-service" sampleConf = (some sampleAuth, none) ∧
    ((∀ (ctx : Context) (tr : Trace), (getToken envAccept sampleAuth ctx tr).2 =
      tr ++ [Event.PostWithContext (envAccept.clientNew sampleConf.Client).1 ctx "oauth/token" none
        ⟨"https://" ++ "orders-service", sampleConf.ID, sampleConf.Secret, "client_credentials"⟩]) ∧
    (∀ (ctx : Context) (tr : Trace), (getToken envAccept sampleAuth ctx tr).1 =
      if (envAccept.PostWithContext tr (envAccept.clientNew sampleConf.Client).1 ctx "oauth/token" none
          ⟨"https://" ++ "orders-service", sampleConf.ID, sampleConf.Secret, "client_credentials"⟩).2 ≠ none then
        ("", some ("client: " ++ verbS (envAccept.PostWithContext tr (envAccept.clientNew sampleConf.Client).1 ctx "oauth/token" none
          ⟨"https://" ++ "orders-service", sampleConf.ID, sampleConf.Secret, "client_credentials"⟩).2 ++ ", could not call client"))
      else if (envAccept.PostWithContext tr (envAccept.clientNew sampleConf.Client).1 ctx "oauth/token" none
          ⟨"https://" ++ "orders-service", sampleConf.ID, sampleConf.Secret, "client_credentials"⟩).1.StatusCode = 200 then
        if (envAccept.jsonAccessToken (envAccept.PostWithContext tr (envAccept.clientNew sampleConf.Client).1 ctx "oauth/token" none
          ⟨"https://" ++ "orders-service", sampleConf.ID, sampleConf.Secret, "client_credentials"⟩).1.Body).2 ≠ none then
          ("", some ("client: " ++ verbS (envAccept.jsonAccessToken (envAccept.PostWithContext tr (envAccept.clientNew sampleConf.Client).1 ctx "oauth/token" none
          ⟨"https://" ++ "orders-service", sampleConf.ID, sampleConf.Secret, "client_credentials"⟩).1.Body).2 ++
            ", could not unmarshal"))
        else
          (((envAccept.jsonAccessToken (envAccept.PostWithContext tr (envAccept.clientNew sampleConf.Client).1 ctx "oauth/token" none
          ⟨"https://" ++ "orders-service", sampleConf.ID, sampleConf.Secret, "client_credentials"⟩).1.Body).1).getD "", none)
      else
        ("", some "client: %!s(<nil>)")) ∧
    Payload.jsonFields ⟨"https://" ++ "orders-service", sampleConf.ID, sampleConf.Secret, "client_credentials"⟩ =
      [("audience", "https://" ++ "orders-service"), ("client_id", sampleConf.ID),
       ("client_secret", sampleConf.Secret), ("grant_type", "client_credentials")] ∧
    (∀ (next : HandlerFunc) (w : ResponseWriter) (r : Request) (tr : Trace),
      (∃ e : GoError, Middleware envAccept sampleAuth next w r tr =
        tr ++ [Event.SetHeader "Access-Control-Allow-Origin" "*",
          Event.SetHeader "Access-Control-Allow-Methods" "DELETE, GET, POST, PUT",
          Event.SetHeader "Access-Control-Allow-Headers" allowedHeaders,
          Event.PostWithContext (envAccept.clientNew sampleConf.Client).1 r.Context "oauth/token" none
            ⟨"https://" ++ "orders-service", sampleConf.ID, sampleConf.Secret, "client_credentials"⟩,
          Event.RespondError (corsWriter w) Marshaler.jsonMarshal 504 e]) ∨
      (∃ (T : String) (e : GoError), Middleware envAccept sampleAuth next w r tr =
        tr ++ [Event.SetHeader "Access-Control-Allow-Origin" "*",
          Event.SetHeader "Access-Control-Allow-Methods" "DELETE, GET, POST, PUT",
          Event.SetHeader "Access-Control-Allow-Headers" allowedHeaders,
          Event.PostWithContext (envAccept.clientNew sampleConf.Client).1 r.Context "oauth/token" none
            ⟨"https://" ++ "orders-service", sampleConf.ID, sampleConf.Secret, "client_credentials"⟩,
          Event.ValidateRequest (validatorOf sampleAuth) (withBearer r T),
          Event.RespondError (corsWriter w) Marshaler.jsonMarshal 401 e]) ∨
      (∃ T : String, Middleware envAccept sampleAuth next w r tr =
        next (corsWriter w) (withBearer r T)
          (tr ++ [Event.SetHeader "Access-Control-Allow-Origin" "*",
            Event.SetHeader "Access-Control-Allow-Methods" "DELETE, GET, POST, PUT",
            Event.SetHeader "Access-Control-Allow-Headers" allowedHeaders,
            Event.PostWithContext (envAccept.clientNew sampleConf.Client).1 r.Context "oauth/token" none
            ⟨"https://" ++ "orders-service", sampleConf.ID, sampleConf.Secret, "client_credentials"⟩,
            Event.ValidateRequest (validatorOf sampleAuth) (withBearer r T)]))) ∧
    (∀ next : HandlerFunc,
      (∀ (w : ResponseWriter) (r : Request) (t : Trace),
        postCount (next w r t) = postCount t) →
      (∀ (w : ResponseWriter) (r : Request) (tr : Trace),
        postCount (Middleware envAccept sampleAuth next w r tr) = postCount tr + 1) ∧
      (∀ (w1 w2 : ResponseWriter) (r1 r2 : Request) (tr : Trace),
        postCount (Middleware envAccept sampleAuth next w2 r2 (Middleware envAccept sampleAuth next w1 r1 tr)) =
          postCount tr + 2))) :=
  ⟨by decide,
    C5_one_token_exchange_per_call envAccept "orders-service" sampleConf sampleAuth
      (by decide)⟩

/-- C6: when the token endpoint answers 200 without a transport error,
`getToken` returns what decoding the body gives: the string under
`access_token` and no error when the body decodes, the empty string when the
key is absent, with no check that the token is non-empty; and, when decoding
fails with `e`, the empty token and the error
`client: e, could not unmarshal`, in which `e` occurs. -/
theorem C6_status200_decoding (env : Env) (a : Authentication) (ctx : Context) (tr : Trace)
    (resp : Response)
    (hpost : env.PostWithContext tr a.client ctx "oauth/token" none (tokenPayload a) =
      (resp, none))
    (hstatus : resp.StatusCode = 200) :
    (getToken env a ctx tr).1 =
      (match env.jsonAccessToken resp.Body with
       | (some T, none) => (T, none)
       | (none, none) => ("", none)
       | (_, some e) => ("", some ("client: " ++ e ++ ", could not unmarshal"))) ∧
    ∀ e : GoError, occursIn e ("client: " ++ e ++ ", could not unmarshal") := by
  constructor
  · have hcases := getToken_cases env a ctx tr
    rw [hpost] at hcases
    simp only [hstatus] at hcases
    rw [hcases]
    rcases env.jsonAccessToken resp.Body with ⟨found, err⟩
    cases err with
    | some e => simp [verbS]
    | none => cases found <;> simp
  · intro e
    exact ⟨"client: ", ", could not unmarshal", rfl⟩

/-- C6, on three bodies: one with a token, one without the key, one that does
not parse. -/
theorem C6_status200_decoding_witness :
    (envAccept.PostWithContext [] sampleAuth.client ⟨7⟩ "oauth/token" none
        (tokenPayload sampleAuth) = (⟨200, [123, 125]⟩, none) ∧
      (⟨200, [123, 125]⟩ : Response).StatusCode = 200 ∧
      (getToken envAccept sampleAuth ⟨7⟩ []).1 = ("svc", none)) ∧
    (envNoField.PostWithContext [] sampleAuth.client ⟨7⟩ "oauth/token" none
        (tokenPayload sampleAuth) = (⟨200, [123, 125]⟩, none) ∧
      (getToken envNoField sampleAuth ⟨7⟩ []).1 = ("", none)) ∧
    (envBadBody.PostWithContext [] sampleAuth.client ⟨7⟩ "oauth/token" none
        (tokenPayload sampleAuth) = (⟨200, [123]⟩, none) ∧
      (getToken envBadBody sampleAuth ⟨7⟩ []).1 =
        ("", some "client: unexpected end of JSON input, could not unmarshal")) :=
  ⟨⟨by decide, by decide,
      (C6_status200_decoding envAccept sampleAuth ⟨7⟩ [] ⟨200, [123, 125]⟩
        (by decide) (by decide)).1⟩,
    ⟨by decide,
      (C6_status200_decoding envNoField sampleAuth ⟨7⟩ [] ⟨200, [123, 125]⟩
        (by decide) (by decide)).1⟩,
    ⟨by decide,
      (C6_status200_decoding envBadBody sampleAuth ⟨7⟩ [] ⟨200, [123]⟩
        (by decide) (by decide)).1⟩⟩

/-- C7: whatever the outcome, the handler first writes the three CORS headers
to the response writer, before the token call; the writer that `RespondError`
(504 or 401) or `next` then receives answers `*` for
`Access-Control-Allow-Origin`, `DELETE, GET, POST, PUT` for
`Access-Control-Allow-Methods` and the fixed list for
`Access-Control-Allow-Headers`. -/
theorem C7_cors_headers_whatever_the_outcome (env : Env) (a : Authentication)
    (next : HandlerFunc) (w : ResponseWriter) (r : Request) (tr : Trace) :
    ∃ w2 : ResponseWriter,
      w2.header.Get "Access-Control-Allow-Origin" = "*" ∧
      w2.header.Get "Access-Control-Allow-Methods" = "DELETE, GET, POST, PUT" ∧
      w2.header.Get "Access-Control-Allow-Headers" =
        "Content-Type, Content-Length, Accept-Encoding, X-CSRF-Token, Authorization, accept, origin, Cache-Control, X-Requested-With" ∧
      ((∃ e : GoError, Middleware env a next w r tr =
          tr ++ [Event.SetHeader "Access-Control-Allow-Origin" "*",
            Event.SetHeader "Access-Control-Allow-Methods" "DELETE, GET, POST, PUT",
            Event.SetHeader "Access-Control-Allow-Headers"
              "Content-Type, Content-Length, Accept-Encoding, X-CSRF-Token, Authorization, accept, origin, Cache-Control, X-Requested-With",
            tokenCall a r.Context,
            Event.RespondError w2 Marshaler.jsonMarshal 504 e]) ∨
       (∃ (T : String) (e : GoError), Middleware env a next w r tr =
          tr ++ [Event.SetHeader "Access-Control-Allow-Origin" "*",
            Event.SetHeader "Access-Control-Allow-Methods" "DELETE, GET, POST, PUT",
            Event.SetHeader "Access-Control-Allow-Headers"
              "Content-Type, Content-Length, Accept-Encoding, X-CSRF-Token, Authorization, accept, origin, Cache-Control, X-Requested-With",
            tokenCall a r.Context,
            Event.ValidateRequest (validatorOf a) (withBearer r T),
            Event.RespondError w2 Marshaler.jsonMarshal 401 e]) ∨
       (∃ T : String, Middleware env a next w r tr =
          next w2 (withBearer r T)
            (tr ++ [Event.SetHeader "Access-Control-Allow-Origin" "*",
              Event.SetHeader "Access-Control-Allow-Methods" "DELETE, GET, POST, PUT",
              Event.SetHeader "Access-Control-Allow-Headers"
                "Content-Type, Content-Length, Accept-Encoding, X-CSRF-Token, Authorization, accept, origin, Cache-Control, X-Requested-With",
              tokenCall a r.Context,
              Event.ValidateRequest (validatorOf a) (withBearer r T)]))) := by
  refine ⟨corsWriter w, ?_, ?_, ?_, ?_⟩
  · simp [corsWriter, Header.Get, values_Set]
  · simp [corsWriter, Header.Get, values_Set]
  · simp [corsWriter, Header.Get, values_Set, allowedHeaders]
  · rw [Middleware_run]
    rcases getToken env a r.Context (tr ++ corsEvents) with ⟨⟨token, err⟩, tr2⟩
    cases err with
    | some e =>
      left
      exact ⟨e, by simp [corsEvents, allowedHeaders]⟩
    | none =>
      right
      simp only []
      cases env.ValidateRequest (tr ++ corsEvents ++ [tokenCall a r.Context])
          (validatorOf a) (withBearer r token) with
      | some e =>
        left
        exact ⟨token, e, by simp [corsEvents, allowedHeaders]⟩
      | none =>
        right
        exact ⟨token, by simp [corsEvents, allowedHeaders]⟩

/-- C8: `New(app, conf)` returns nil and the error of `client.New` when
building the client from `conf.Client` fails; otherwise it returns a nil error
and an Authentication with identifier `"https://" ++ app`, domain `conf.URL`,
clientID `conf.ID`, clientSecret `conf.Secret` and the client just built. -/
theorem C8_New_copies_the_configuration (env : Env) (app : String) (conf : Config) :
    ((env.clientNew conf.Client).2 ≠ none →
      New env app conf = (none, (env.clientNew conf.Client).2)) ∧
    ((env.clientNew conf.Client).2 = none →
      New env app conf =
        (some { identifier := "https://" ++ app
                domain := conf.Client.URL
                clientID := conf.ID
                clientSecret := conf.Secret
                client := (env.clientNew conf.Client).1 }, none)) := by
  constructor
  · intro h
    rw [New_cases, if_pos h]
  · intro h
    rw [New_cases, if_neg (by simp [h])]

/-- C8, on a client that cannot be built and on one that can. -/
theorem C8_New_copies_the_configuration_witness :
    ((envNoClient.clientNew sampleConf.Client).2 ≠ none ∧
      New envNoClient "orders-service" sampleConf = (none, some "client: missing url")) ∧
    ((envAccept.clientNew sampleConf.Client).2 = none ∧
      New envAccept "orders-service" sampleConf =
        (some { identifier := "https://orders-service"
                domain := "https://idp.example.com"
                clientID := "abc"
                clientSecret := "xyz"
                client := ⟨1⟩ }, none)) :=
  ⟨⟨by decide,
      (C8_New_copies_the_configuration envNoClient "orders-service" sampleConf).1
        (by decide)⟩,
    ⟨by decide,
      (C8_New_copies_the_configuration envAccept "orders-service" sampleConf).2
        (by decide)⟩⟩

/-- C9: the validator the handler of `a.Middleware(next)` uses is one value
fixed by `a` alone, before any request is seen: JWKS endpoint
`a.domain ++ "/.well-known/jwks.json"`, expected audience `[a.identifier]`,
expected issuer `a.domain ++ "/"`, algorithm `RS256`. For every request that
gets its token, this is the validator `ValidateRequest` is called on. -/
theorem C9_validator_is_fixed_by_the_authenticator (a : Authentication) :
    ∃ V : JWTValidator,
      V.config.secretProvider.options.URI = a.domain ++ "/.well-known/jwks.json" ∧
      V.config.expectedAudience = [a.identifier] ∧
      V.config.expectedIssuer = a.domain ++ "/" ∧
      V.config.expectedAlgorithm = "RS256" ∧
      ∀ (env : Env) (next : HandlerFunc) (w : ResponseWriter) (r : Request) (tr : Trace),
        Middleware env a next w r tr =
          match (getToken env a r.Context (tr ++ corsEvents)).1 with
          | (_, some e) =>
            tr ++ corsEvents ++ [tokenCall a r.Context,
              Event.RespondError (corsWriter w) Marshaler.jsonMarshal 504 e]
          | (token, none) =>
            match env.ValidateRequest (tr ++ corsEvents ++ [tokenCall a r.Context])
                V (withBearer r token) with
            | some e =>
              tr ++ corsEvents ++ [tokenCall a r.Context,
                Event.ValidateRequest V (withBearer r token),
                Event.RespondError (corsWriter w) Marshaler.jsonMarshal 401 e]
            | none =>
              next (corsWriter w) (withBearer r token)
                (tr ++ corsEvents ++ [tokenCall a r.Context,
                  Event.ValidateRequest V (withBearer r token)]) :=
  ⟨validatorOf a, rfl, rfl, rfl, rfl, fun env next w r tr => Middleware_run env a next w r tr⟩

/-- C10: when token acquisition returns `T` without error, the handler
injects before it validates: after the token call it calls `ValidateRequest`
exactly once, on a request that holds under `Authorization` the inbound
values followed by `Bearer T`, with every other header and every other part
of the request as it came in; on acceptance `next` receives that same
request. -/
theorem C10_injection_precedes_validation (env : Env) (a : Authentication)
    (w : ResponseWriter) (r : Request) (tr : Trace) (T : String)
    (htok : (getToken env a r.Context (tr ++ corsEvents)).1 = (T, none)) :
    ∃ r2 : Request,
      r2.Header.Values "Authorization" = r.Header.Values "Authorization" ++ ["Bearer " ++ T] ∧
      (∀ key : String, key ≠ "Authorization" → r2.Header.Values key = r.Header.Values key) ∧
      r2.Method = r.Method ∧ r2.URL = r.URL ∧ r2.Body = r.Body ∧ r2.Context = r.Context ∧
      (∀ next : HandlerFunc, Middleware env a next w r tr =
        match env.ValidateRequest (tr ++ corsEvents ++ [tokenCall a r.Context])
            (validatorOf a) r2 with
        | some e =>
          tr ++ corsEvents ++ [tokenCall a r.Context,
            Event.ValidateRequest (validatorOf a) r2,
            Event.RespondError (corsWriter w) Marshaler.jsonMarshal 401 e]
        | none =>
          next (corsWriter w) r2
            (tr ++ corsEvents ++ [tokenCall a r.Context,
              Event.ValidateRequest (validatorOf a) r2])) ∧
      validateCount (Middleware env a spy w r tr) = validateCount tr + 1 := by
  have hrun : ∀ next : HandlerFunc, Middleware env a next w r tr =
      match env.ValidateRequest (tr ++ corsEvents ++ [tokenCall a r.Context])
          (validatorOf a) (withBearer r T) with
      | some e =>
        tr ++ corsEvents ++ [tokenCall a r.Context,
          Event.ValidateRequest (validatorOf a) (withBearer r T),
          Event.RespondError (corsWriter w) Marshaler.jsonMarshal 401 e]
      | none =>
        next (corsWriter w) (withBearer r T)
          (tr ++ corsEvents ++ [tokenCall a r.Context,
            Event.ValidateRequest (validatorOf a) (withBearer r T)]) := by
    intro next
    rw [Middleware_run, htok]
  refine ⟨withBearer r T, ?_, ?_, rfl, rfl, rfl, rfl, hrun, ?_⟩
  · simp [withBearer, values_Add]
  · intro key hkey
    simp [withBearer, values_Add, Ne.symm hkey]
  · rw [hrun spy]
    cases env.ValidateRequest (tr ++ corsEvents ++ [tokenCall a r.Context])
        (validatorOf a) (withBearer r T) with
    | some e => simp [validateCount_append, validateCount, corsEvents, tokenCall]
    | none => simp [spy, validateCount_append, validateCount, corsEvents, tokenCall]

/-- C10, on a request that carries the caller's own `Authorization` header. -/
theorem C10_injection_precedes_validation_witness :
    (getToken envAccept sampleAuth callerRequest.Context ([] ++ corsEvents)).1 = ("svc", none) ∧
    ∃ r2 : Request,
      r2.Header.Values "Authorization" =
        callerRequest.Header.Values "Authorization" ++ ["Bearer " ++ "svc"] ∧
      (∀ key : String, key ≠ "Authorization" →
        r2.Header.Values key = callerRequest.Header.Values key) ∧
      r2.Method = callerRequest.Method ∧ r2.URL = callerRequest.URL ∧
      r2.Body = callerRequest.Body ∧ r2.Context = callerRequest.Context ∧
      (∀ next : HandlerFunc, Middleware envAccept sampleAuth next freshWriter callerRequest [] =
        match envAccept.ValidateRequest
            ([] ++ corsEvents ++ [tokenCall sampleAuth callerRequest.Context])
            (validatorOf sampleAuth) r2 with
        | some e =>
          [] ++ corsEvents ++ [tokenCall sampleAuth callerRequest.Context,
            Event.ValidateRequest (validatorOf sampleAuth) r2,
            Event.RespondError (corsWriter freshWriter) Marshaler.jsonMarshal 401 e]
        | none =>
          next (corsWriter freshWriter) r2
            ([] ++ corsEvents ++ [tokenCall sampleAuth callerRequest.Context,
              Event.ValidateRequest (validatorOf sampleAuth) r2])) ∧
      validateCount (Middleware envAccept sampleAuth spy freshWriter callerRequest []) =
        validateCount [] + 1 :=
  ⟨by decide,
    C10_injection_precedes_validation envAccept sampleAuth freshWriter callerRequest [] "svc"
      (by decide)⟩

end authentication
